import Mathlib

/-
Verification of the metadata-annotation decorators of `aiohttp_apispec`
(file `aiohttp_apispec/decorators.py`).

The module exposes three decorators:
  * `docs(**kwargs)`        — attach free-form swagger attributes,
  * `use_kwargs(schema, locations=None, **kwargs)` — attach request-schema info,
  * `marshal_with(schema, code=200, required=False, description=None)` —
    attach response info.
All three read-modify-write a per-handler dict `func.__apispec__`
(`parameters` / `responses` / `docked` plus free-form extra keys), and
`use_kwargs` additionally appends to a per-handler list `func.__schemas__`.

We embed Python dicts as association lists with Python's insertion-order
semantics: updating an existing key keeps its position, a new key is
appended at the end.  Python exceptions (e.g. `KeyError` on a clobbered
`parameters` field, `IndexError` on an empty `schema2parameters` result)
are embedded as `Option.none`.  The external collaborator
`schema2parameters` is a parameter of the embedding (`conv` below).
-/

namespace ApispecModel

/-- Python values, as far as the decorators inspect them. -/
inductive Val where
  | vnone : Val
  | vbool : Bool → Val
  | vint  : Int → Val
  | vstr  : String → Val
  | vlist : List Val → Val
  | vdict : List (String × Val) → Val

/-- A Python dict with string keys, in insertion order. -/
abbrev Dict := List (String × Val)

/-- `d[k]` lookup: the value at the first (hence, for a well-formed dict,
the only) occurrence of key `k`. -/
def dlookup (d : Dict) (k : String) : Option Val :=
  match d with
  | [] => none
  | (k', v) :: rest => if k' = k then some v else dlookup rest k

/-- `d[k] = v` assignment with Python dict semantics: an existing key keeps
its position and gets the new value; a fresh key is appended at the end. -/
def dinsert (d : Dict) (k : String) (v : Val) : Dict :=
  match d with
  | [] => [(k, v)]
  | (k', v') :: rest => if k' = k then (k, v) :: rest else (k', v') :: dinsert rest k v

/-- `d.update(u)`: assign every item of `u` into `d`, in `u`'s order. -/
def dupdate (d : Dict) (u : Dict) : Dict :=
  u.foldl (fun acc kv => dinsert acc kv.1 kv.2) d

/-- A handler function: an opaque behaviour (`body`) plus the two optional
side tables the decorators attach (`__apispec__` and `__schemas__`). -/
structure Handler where
  body : Nat
  apispec : Option Dict
  schemas : Option (List Dict)

/-- The record created on first annotation:
`{'parameters': [], 'responses': {}, 'docked': {}}`. -/
def emptyApispec : Dict :=
  [("parameters", .vlist []), ("responses", .vdict []), ("docked", .vdict [])]

/-- The value `['application/json']` forced into `produces`. -/
def jsonProduces : Val := .vlist [.vstr "application/json"]

/-- `docs(**kwargs)` applied to a handler: forces
`kwargs['produces'] = ['application/json']`, creates the record if absent,
shallow-updates it with `kwargs`, then forces `docked = {'route': False}`. -/
def docs (kwargs : Dict) (func : Handler) : Handler :=
  let kwargs' := dinsert kwargs "produces" jsonProduces
  let spec := func.apispec.getD emptyApispec
  let spec := dupdate spec kwargs'
  let spec := dinsert spec "docked" (.vdict [("route", .vbool false)])
  { func with apispec := some spec }

/-- The options dict passed to the `schema2parameters` collaborator:
`{'required': ..., 'default_in': ...?}`. -/
structure ConvOptions where
  required : Bool
  default_in : Option String

/-- The location-resolution logic of `use_kwargs` (lines
`locations = locations or []` … `locations = None`): a non-empty explicit
`locations` wins; else a truthy legacy `location` kwarg is wrapped into a
one-element list; else `None`. -/
def resolveLocations (locations : Option (List String)) (location : Option String) :
    Option (List String) :=
  let locs := locations.getD []
  if locs.isEmpty then
    match location with
    | some s => if s = "" then none else some [s]
    | none => none
  else some locs

/-- Builds the collaborator options: `required` always;
`default_in = locations[0]` when a location was resolved (a resolved value
is never the empty list, which Python's `if locations:` would skip). -/
def convOptionsFor (required : Bool) (resolved : Option (List String)) : ConvOptions :=
  { required := required,
    default_in := match resolved with
      | some (x :: _) => some x
      | _ => none }

/-- `None` or a list of location strings, as a Python value. -/
def locVal : Option (List String) → Val
  | none => .vnone
  | some xs => .vlist (xs.map .vstr)

/-- One `__schemas__` entry: `{'schema': schema, 'locations': locations}`. -/
def schemaEntry (schema : Val) (resolved : Option (List String)) : Dict :=
  [("schema", schema), ("locations", locVal resolved)]

/-- `use_kwargs(schema, locations, location=..., required=...)` applied to a
handler, after the callable `schema` argument has been resolved to an
instance.  `conv` is the external `schema2parameters` collaborator.
Returns `none` where Python would raise (the record's `parameters` field
exists but is not a list, e.g. clobbered through `docs(parameters=...)`). -/
def use_kwargs (conv : Val → ConvOptions → List Dict) (schema : Val)
    (locations : Option (List String)) (location : Option String) (required : Bool)
    (func : Handler) : Option Handler :=
  let resolved := resolveLocations locations location
  let parameters := conv schema (convOptionsFor required resolved)
  let spec := func.apispec.getD emptyApispec
  match dlookup spec "parameters" with
  | some (.vlist ps) =>
    let spec := dinsert spec "parameters" (.vlist (ps ++ parameters.map Val.vdict))
    let entries := func.schemas.getD []
    some { func with
      apispec := some spec,
      schemas := some (entries ++ [schemaEntry schema resolved]) }
  | _ => none

/-- The whitelist `valid_response_fields = ('schema', 'description',
'headers', 'examples')`. -/
def validResponseFields : List String := ["schema", "description", "headers", "examples"]

/-- The response descriptor built by `marshal_with` from the collaborator's
first produced descriptor `raw`: filter down to the whitelisted keys, then
overlay a truthy explicit `description`. -/
def filterResponse (raw : Dict) (description : Option String) : Dict :=
  let params := raw.filter (fun kv => decide (kv.1 ∈ validResponseFields))
  match description with
  | some d => if d = "" then params else dinsert params "description" (.vstr d)
  | none => params

/-- `marshal_with(schema, code, required, description)` applied to a
handler, after the callable `schema` argument has been resolved.  Returns
`none` where Python would raise: the collaborator produced no descriptor
(`IndexError` on `[0]`) or the record's `responses` field is not a dict. -/
def marshal_with (conv : Val → ConvOptions → List Dict) (schema : Val)
    (code : Nat) (required : Bool) (description : Option String)
    (func : Handler) : Option Handler :=
  let spec := func.apispec.getD emptyApispec
  match conv schema { required := required, default_in := none } with
  | [] => none
  | raw :: _ =>
    let params := filterResponse raw description
    match dlookup spec "responses" with
    | some (.vdict rs) =>
      some { func with
        apispec := some (dinsert spec "responses"
          (.vdict (dinsert rs (toString code) (.vdict params)))) }
    | _ => none

/-- The `schema` argument of `use_kwargs` / `marshal_with`: either a schema
instance, or a zero-argument constructor for one (`callable(schema)` true).
A constructor is modelled as a function of an invocation counter, so that
distinct invocations can yield distinct instances. -/
inductive SchemaArg where
  | inst : Val → SchemaArg
  | factory : (Nat → Val) → SchemaArg

/-- The `if callable(schema): schema = schema()` step, threaded through an
invocation counter: an instance is passed through, a constructor is invoked
exactly once. -/
def resolveSchema : SchemaArg → Nat → Val × Nat
  | .inst v, n => (v, n)
  | .factory f, n => (f n, n + 1)

/-- The full `use_kwargs` constructor: resolves the schema argument at
decorator-construction time and returns the decorator (which closes over
the single resolved instance) together with the updated counter. -/
def use_kwargs_ctor (conv : Val → ConvOptions → List Dict) (arg : SchemaArg)
    (locations : Option (List String)) (location : Option String) (required : Bool)
    (n : Nat) : (Handler → Option Handler) × Nat :=
  let p := resolveSchema arg n
  (use_kwargs conv p.1 locations location required, p.2)

/-- The full `marshal_with` constructor: resolves the schema argument at
decorator-construction time and returns the decorator together with the
updated counter. -/
def marshal_with_ctor (conv : Val → ConvOptions → List Dict) (arg : SchemaArg)
    (code : Nat) (required : Bool) (description : Option String)
    (n : Nat) : (Handler → Option Handler) × Nat :=
  let p := resolveSchema arg n
  (marshal_with conv p.1 code required description, p.2)

/-- One application of one of the three decorators to a handler. -/
inductive Op where
  | docsOp (kwargs : Dict)
  | useKwargsOp (conv : Val → ConvOptions → List Dict) (schema : Val)
      (locations : Option (List String)) (location : Option String) (required : Bool)
  | marshalOp (conv : Val → ConvOptions → List Dict) (schema : Val)
      (code : Nat) (required : Bool) (description : Option String)

/-- Applying an operation to a handler (`none` = Python raised). -/
def Op.apply : Op → Handler → Option Handler
  | .docsOp k, h => some (docs k h)
  | .useKwargsOp c s ls l r, h => use_kwargs c s ls l r h
  | .marshalOp c s cd r d, h => marshal_with c s cd r d h

/-- A `docs` option set is safe when it does not clobber the accumulated
`parameters` / `responses` fields wholesale. -/
def Op.safe : Op → Prop
  | .docsOp k => dlookup k "parameters" = none ∧ dlookup k "responses" = none
  | _ => True

/-- The handler's `__apispec__` record (empty dict if never attached). -/
def getSpec (h : Handler) : Dict := h.apispec.getD []

/-- The accumulated `parameters` list of the record ( `[]` when the record
is absent or the field is not a list). -/
def getParams (h : Handler) : List Val :=
  match dlookup (getSpec h) "parameters" with
  | some (.vlist ps) => ps
  | _ => []

/-- The accumulated `responses` mapping of the record. -/
def getResponses (h : Handler) : Dict :=
  match dlookup (getSpec h) "responses" with
  | some (.vdict rs) => rs
  | _ => []

/-- The handler's `__schemas__` list (empty if never attached). -/
def getSchemas (h : Handler) : List Dict := h.schemas.getD []

/-- An undecorated handler. -/
def freshHandler : Handler := { body := 0, apispec := none, schemas := none }

/-! ### Dictionary lemmas -/

theorem dlookup_dinsert_self (d : Dict) (k : String) (v : Val) :
    dlookup (dinsert d k v) k = some v := by
  induction d with
  | nil => simp [dinsert, dlookup]
  | cons p rest ih =>
    obtain ⟨k', v'⟩ := p
    by_cases h : k' = k <;> simp [dinsert, dlookup, h, ih]

theorem dlookup_dinsert_ne (d : Dict) (ki kl : String) (v : Val) (h : ki ≠ kl) :
    dlookup (dinsert d ki v) kl = dlookup d kl := by
  induction d with
  | nil => simp [dinsert, dlookup, h]
  | cons p rest ih =>
    obtain ⟨k1, v1⟩ := p
    by_cases h1 : k1 = ki
    · subst h1
      simp [dinsert, dlookup, h]
    · by_cases h2 : k1 = kl
      · subst h2
        simp [dinsert, dlookup, h1]
      · simp [dinsert, dlookup, h1, h2, ih]

theorem dlookup_eq_none_iff (d : Dict) (k : String) :
    dlookup d k = none ↔ k ∉ d.map Prod.fst := by
  induction d with
  | nil => simp [dlookup]
  | cons p rest ih =>
    obtain ⟨k', v'⟩ := p
    by_cases h : k' = k
    · subst h
      simp [dlookup]
    · have h' : ¬ k = k' := fun hh => h hh.symm
      simp [dlookup, h, h', ih]

theorem mem_keys_dinsert (d : Dict) (k k0 : String) (v : Val) :
    k0 ∈ (dinsert d k v).map Prod.fst ↔ k0 = k ∨ k0 ∈ d.map Prod.fst := by
  induction d with
  | nil => simp [dinsert]
  | cons p rest ih =>
    obtain ⟨k', v'⟩ := p
    by_cases h : k' = k
    · subst h
      have he : dinsert ((k', v') :: rest) k' v = (k', v) :: rest := by
        simp [dinsert]
      rw [he]
      simp only [List.map_cons, List.mem_cons]
      tauto
    · have he : dinsert ((k', v') :: rest) k v = (k', v') :: dinsert rest k v := by
        simp [dinsert, h]
      rw [he]
      simp only [List.map_cons, List.mem_cons, ih]
      tauto

theorem keys_dinsert_nodup (d : Dict) (k : String) (v : Val)
    (h : (d.map Prod.fst).Nodup) : ((dinsert d k v).map Prod.fst).Nodup := by
  induction d with
  | nil => simp [dinsert]
  | cons p rest ih =>
    obtain ⟨k', v'⟩ := p
    simp only [List.map_cons, List.nodup_cons] at h
    by_cases hk : k' = k
    · subst hk
      have he : dinsert ((k', v') :: rest) k' v = (k', v) :: rest := by
        simp [dinsert]
      rw [he]
      simp only [List.map_cons, List.nodup_cons]
      exact h
    · have hmem : k' ∉ (dinsert rest k v).map Prod.fst := by
        rw [mem_keys_dinsert]
        rintro (rfl | hm)
        · exact hk rfl
        · exact h.1 hm
      have he : dinsert ((k', v') :: rest) k v = (k', v') :: dinsert rest k v := by
        simp [dinsert, hk]
      rw [he]
      simp only [List.map_cons, List.nodup_cons]
      exact ⟨hmem, ih h.2⟩

theorem dupdate_cons (d : Dict) (k : String) (v : Val) (rest : Dict) :
    dupdate d ((k, v) :: rest) = dupdate (dinsert d k v) rest := rfl

theorem dlookup_dupdate_of_none (u d : Dict) (k : String)
    (h : dlookup u k = none) : dlookup (dupdate d u) k = dlookup d k := by
  induction u generalizing d with
  | nil => rfl
  | cons p rest ih =>
    obtain ⟨k1, v1⟩ := p
    by_cases h1 : k1 = k
    · subst h1
      simp [dlookup] at h
    · have hrest : dlookup rest k = none := by simpa [dlookup, h1] using h
      rw [dupdate_cons, ih (dinsert d k1 v1) hrest, dlookup_dinsert_ne _ _ _ _ h1]

theorem dlookup_dupdate_of_some (u d : Dict) (k : String) (v : Val)
    (hn : (u.map Prod.fst).Nodup) (h : dlookup u k = some v) :
    dlookup (dupdate d u) k = some v := by
  induction u generalizing d with
  | nil => simp [dlookup] at h
  | cons p rest ih =>
    obtain ⟨k1, v1⟩ := p
    simp only [List.map_cons, List.nodup_cons] at hn
    by_cases h1 : k1 = k
    · subst h1
      have hv : v1 = v := by simpa [dlookup] using h
      subst hv
      have hrest : dlookup rest k1 = none := (dlookup_eq_none_iff rest k1).mpr hn.1
      rw [dupdate_cons, dlookup_dupdate_of_none _ _ _ hrest, dlookup_dinsert_self]
    · have hrest : dlookup rest k = some v := by simpa [dlookup, h1] using h
      rw [dupdate_cons]
      exact ih (dinsert d k1 v1) hn.2 hrest

/-! ### Unfolding equations for `docs` -/

theorem docs_apispec_eq (O : Dict) (h : Handler) :
    (docs O h).apispec = some (dinsert (dupdate (h.apispec.getD emptyApispec)
      (dinsert O "produces" jsonProduces)) "docked"
      (.vdict [("route", .vbool false)])) := rfl

theorem getSpec_docs (O : Dict) (h : Handler) :
    getSpec (docs O h) = dinsert (dupdate (h.apispec.getD emptyApispec)
      (dinsert O "produces" jsonProduces)) "docked"
      (.vdict [("route", .vbool false)]) := rfl

/-! ### C1 -/

/-- C1: for every handler `h` and option set `O` (also when `O` already
contains a `produces` key), applying `docs O` to `h` leaves the doc record
with `docked` equal exactly to `{'route': False}` and `produces` equal
exactly to `['application/json']`; when `h` had no record, the operation
first creates `{'parameters': [], 'responses': {}, 'docked': {}}`, so the
`parameters` / `responses` fields of the result are the empty list / dict
whenever `O` does not itself supply them. -/
theorem C1_docs_forces_docked_produces (O : Dict) (h : Handler)
    (hO : (O.map Prod.fst).Nodup) :
    ∃ d, (docs O h).apispec = some d ∧
      dlookup d "docked" = some (.vdict [("route", .vbool false)]) ∧
      dlookup d "produces" = some (.vlist [.vstr "application/json"]) ∧
      (h.apispec = none → dlookup O "parameters" = none →
        dlookup d "parameters" = some (.vlist [])) ∧
      (h.apispec = none → dlookup O "responses" = none →
        dlookup d "responses" = some (.vdict [])) := by
  refine ⟨_, docs_apispec_eq O h, ?_, ?_, ?_, ?_⟩
  · exact dlookup_dinsert_self _ _ _
  · rw [dlookup_dinsert_ne _ _ _ _ (by decide)]
    exact dlookup_dupdate_of_some _ _ _ _ (keys_dinsert_nodup _ _ _ hO)
      (dlookup_dinsert_self _ _ _)
  · intro ha hO1
    have hO' : dlookup (dinsert O "produces" jsonProduces) "parameters" = none := by
      rw [dlookup_dinsert_ne _ _ _ _ (by decide)]
      exact hO1
    rw [dlookup_dinsert_ne _ _ _ _ (by decide), ha]
    rw [dlookup_dupdate_of_none _ _ _ hO']
    rfl
  · intro ha hO1
    have hO' : dlookup (dinsert O "produces" jsonProduces) "responses" = none := by
      rw [dlookup_dinsert_ne _ _ _ _ (by decide)]
      exact hO1
    rw [dlookup_dinsert_ne _ _ _ _ (by decide), ha]
    rw [dlookup_dupdate_of_none _ _ _ hO']
    rfl

/-- Witness for C1: a concrete option set applied to a fresh handler. -/
theorem C1_witness :
    ∃ d, (docs [("tags", Val.vstr "t")] freshHandler).apispec = some d ∧
      dlookup d "docked" = some (.vdict [("route", .vbool false)]) ∧
      dlookup d "produces" = some (.vlist [.vstr "application/json"]) ∧
      (freshHandler.apispec = none →
        dlookup [("tags", Val.vstr "t")] "parameters" = none →
        dlookup d "parameters" = some (.vlist [])) ∧
      (freshHandler.apispec = none →
        dlookup [("tags", Val.vstr "t")] "responses" = none →
        dlookup d "responses" = some (.vdict [])) :=
  C1_docs_forces_docked_produces [("tags", Val.vstr "t")] freshHandler (by simp)

/-! ### C2 -/

/-- C2 counterexample: the claim says every key of the second option set
keeps the second call's value, but `docs` forces
`produces = ['application/json']`, discarding a caller-supplied
`produces = "x"`. -/
theorem C2_cex :
    dlookup (getSpec (docs [("produces", Val.vstr "x")] (docs [] freshHandler)))
        "produces" = some (Val.vlist [Val.vstr "application/json"]) ∧
      Val.vlist [Val.vstr "application/json"] ≠ Val.vstr "x" :=
  ⟨rfl, fun hcontra => Val.noConfusion hcontra⟩

/-- C2 (amended): after `docs O2 (docs O1 h)`, every key of `O2` *other
than the operation-forced keys `produces` and `docked`* holds `O2`'s value,
and every such key present only in `O1` keeps `O1`'s value. -/
theorem C2_docs_twice_merge (O1 O2 : Dict) (h : Handler)
    (h1 : (O1.map Prod.fst).Nodup) (h2 : (O2.map Prod.fst).Nodup)
    (k : String) (hk1 : k ≠ "produces") (hk2 : k ≠ "docked") :
    (∀ v, dlookup O2 k = some v →
      dlookup (getSpec (docs O2 (docs O1 h))) k = some v) ∧
    (dlookup O2 k = none → ∀ v, dlookup O1 k = some v →
      dlookup (getSpec (docs O2 (docs O1 h))) k = some v) := by
  constructor
  · intro v hv
    rw [getSpec_docs, dlookup_dinsert_ne _ _ _ _ (Ne.symm hk2)]
    refine dlookup_dupdate_of_some _ _ _ _ (keys_dinsert_nodup _ _ _ h2) ?_
    rw [dlookup_dinsert_ne _ _ _ _ (Ne.symm hk1)]
    exact hv
  · intro hnone v hv
    rw [getSpec_docs, dlookup_dinsert_ne _ _ _ _ (Ne.symm hk2)]
    have hu2 : dlookup (dinsert O2 "produces" jsonProduces) k = none := by
      rw [dlookup_dinsert_ne _ _ _ _ (Ne.symm hk1)]
      exact hnone
    rw [dlookup_dupdate_of_none _ _ _ hu2]
    show dlookup (getSpec (docs O1 h)) k = some v
    rw [getSpec_docs, dlookup_dinsert_ne _ _ _ _ (Ne.symm hk2)]
    refine dlookup_dupdate_of_some _ _ _ _ (keys_dinsert_nodup _ _ _ h1) ?_
    rw [dlookup_dinsert_ne _ _ _ _ (Ne.symm hk1)]
    exact hv

/-- Witness for the amended C2 at concrete option sets: `summary` is
overwritten by the second call, `extra` persists from the first. -/
theorem C2_witness :
    (∀ v, dlookup [("summary", Val.vstr "c")] "summary" = some v →
      dlookup (getSpec (docs [("summary", Val.vstr "c")]
        (docs [("summary", Val.vstr "a"), ("extra", Val.vstr "b")] freshHandler)))
        "summary" = some v) ∧
    (dlookup [("summary", Val.vstr "c")] "summary" = none →
      ∀ v, dlookup [("summary", Val.vstr "a"), ("extra", Val.vstr "b")] "summary" = some v →
      dlookup (getSpec (docs [("summary", Val.vstr "c")]
        (docs [("summary", Val.vstr "a"), ("extra", Val.vstr "b")] freshHandler)))
        "summary" = some v) :=
  C2_docs_twice_merge [("summary", Val.vstr "a"), ("extra", Val.vstr "b")]
    [("summary", Val.vstr "c")] freshHandler (by simp) (by simp)
    "summary" (by decide) (by decide)

/-! ### Characterisation of a successful `use_kwargs` / `marshal_with` -/

theorem use_kwargs_spec (conv : Val → ConvOptions → List Dict) (S : Val)
    (locations : Option (List String)) (location : Option String) (r : Bool)
    (h h' : Handler)
    (happ : use_kwargs conv S locations location r h = some h') :
    ∃ ps, dlookup (h.apispec.getD emptyApispec) "parameters" = some (.vlist ps) ∧
      h' = { h with
        apispec := some (dinsert (h.apispec.getD emptyApispec) "parameters"
          (.vlist (ps ++ (conv S (convOptionsFor r
            (resolveLocations locations location))).map Val.vdict))),
        schemas := some (h.schemas.getD [] ++
          [schemaEntry S (resolveLocations locations location)]) } := by
  simp only [use_kwargs] at happ
  split at happ
  · exact ⟨_, by assumption, (Option.some.inj happ).symm⟩
  · exact absurd happ (by simp)

theorem marshal_with_spec (conv : Val → ConvOptions → List Dict) (S : Val)
    (code : Nat) (r : Bool) (desc : Option String) (h h' : Handler)
    (happ : marshal_with conv S code r desc h = some h') :
    ∃ raw rest rs, conv S { required := r, default_in := none } = raw :: rest ∧
      dlookup (h.apispec.getD emptyApispec) "responses" = some (.vdict rs) ∧
      h' = { h with apispec := some (dinsert (h.apispec.getD emptyApispec) "responses"
        (.vdict (dinsert rs (toString code) (.vdict (filterResponse raw desc))))) } := by
  simp only [marshal_with] at happ
  split at happ
  · exact absurd happ (by simp)
  · split at happ
    · refine ⟨_, _, _, by assumption, by assumption, (Option.some.inj happ).symm⟩
    · exact absurd happ (by simp)

theorem getParams_of_lookup (h : Handler) (ps : List Val)
    (hps : dlookup (h.apispec.getD emptyApispec) "parameters" = some (.vlist ps)) :
    getParams h = ps := by
  cases ha : h.apispec with
  | none =>
    rw [ha] at hps
    have he : dlookup ((none : Option Dict).getD emptyApispec) "parameters" =
        some (Val.vlist []) := rfl
    rw [he] at hps
    obtain rfl : ps = [] := (Val.vlist.inj (Option.some.inj hps)).symm
    simp [getParams, getSpec, ha, dlookup]
  | some d =>
    rw [ha] at hps
    rw [Option.getD_some] at hps
    simp [getParams, getSpec, ha, hps]

theorem getResponses_of_lookup (h : Handler) (rs : Dict)
    (hrs : dlookup (h.apispec.getD emptyApispec) "responses" = some (.vdict rs)) :
    getResponses h = rs := by
  cases ha : h.apispec with
  | none =>
    rw [ha] at hrs
    have he : dlookup ((none : Option Dict).getD emptyApispec) "responses" =
        some (Val.vdict []) := rfl
    rw [he] at hrs
    obtain rfl : rs = [] := (Val.vdict.inj (Option.some.inj hrs)).symm
    simp [getResponses, getSpec, ha, dlookup]
  | some d =>
    rw [ha] at hrs
    rw [Option.getD_some] at hrs
    simp [getResponses, getSpec, ha, hrs]

theorem getParams_after_set (h : Handler) (spec : Dict) (l : List Val)
    (ss : Option (List Dict)) :
    getParams { h with
      apispec := some (dinsert spec "parameters" (.vlist l)),
      schemas := ss } = l := by
  simp [getParams, getSpec, dlookup_dinsert_self]

/-! ### C3 -/

/-- C3 counterexample: with an explicitly supplied *empty* location list and
no legacy option, the appended schema entry records `locations = None`, not
the supplied `[]`, so the entry is not `{'schema': S, 'locations': L}`. -/
theorem C3_cex :
    (use_kwargs (fun _ _ => []) (Val.vstr "S") (some []) none false
        freshHandler).map Handler.schemas =
      some (some [[("schema", Val.vstr "S"), ("locations", Val.vnone)]]) ∧
    Val.vnone ≠ Val.vlist [] :=
  ⟨rfl, fun hcontra => Val.noConfusion hcontra⟩

/-- C3 (amended): for a *non-empty* location list `x :: xs`, one successful
`use_kwargs` call appends exactly the descriptors produced by the
conversion collaborator to `parameters` (at the end, so call order is
preserved across repeated calls) and exactly one entry
`{'schema': S, 'locations': x :: xs}` at the end of the schema list; an
empty supplied list instead resolves to the legacy/`None` value (C10). -/
theorem C3_use_kwargs_appends (conv : Val → ConvOptions → List Dict) (S : Val)
    (x : String) (xs : List String) (loc : Option String) (r : Bool)
    (h h' : Handler)
    (happ : use_kwargs conv S (some (x :: xs)) loc r h = some h') :
    getParams h' = getParams h ++
      (conv S { required := r, default_in := some x }).map Val.vdict ∧
    h'.schemas = some (getSchemas h ++ [schemaEntry S (some (x :: xs))]) := by
  obtain ⟨ps, hps, rfl⟩ := use_kwargs_spec _ _ _ _ _ _ _ happ
  have hres : resolveLocations (some (x :: xs)) loc = some (x :: xs) := by
    simp [resolveLocations]
  constructor
  · rw [getParams_after_set, getParams_of_lookup h ps hps, hres]
    rfl
  · show some (h.schemas.getD [] ++
        [schemaEntry S (resolveLocations (some (x :: xs)) loc)]) =
      some (getSchemas h ++ [schemaEntry S (some (x :: xs))])
    rw [hres]
    rfl

/-- Witness for the amended C3: one call with location list `["query"]` and
a collaborator producing one descriptor. -/
theorem C3_witness :
    getParams ⟨0, some [("parameters", Val.vlist [Val.vdict [("name", Val.vstr "p")]]),
        ("responses", Val.vdict []), ("docked", Val.vdict [])],
      some [[("schema", Val.vstr "S"), ("locations", Val.vlist [Val.vstr "query"])]]⟩ =
      getParams freshHandler ++
        ((fun (_ : Val) (_ : ConvOptions) => [[("name", Val.vstr "p")]])
          (Val.vstr "S")
          { required := false, default_in := some "query" }).map Val.vdict ∧
    Handler.schemas ⟨0,
        some [("parameters", Val.vlist [Val.vdict [("name", Val.vstr "p")]]),
          ("responses", Val.vdict []), ("docked", Val.vdict [])],
        some [[("schema", Val.vstr "S"),
          ("locations", Val.vlist [Val.vstr "query"])]]⟩ =
      some (getSchemas freshHandler ++
        [schemaEntry (Val.vstr "S") (some ["query"])]) :=
  C3_use_kwargs_appends (fun _ _ => [[("name", Val.vstr "p")]]) (Val.vstr "S")
    "query" [] none false freshHandler _ rfl

/-! ### C4 -/

/-- C4 counterexample: an explicitly given *empty* `locations` argument
does not win; with `locations=[]` and legacy `location="body"` the
resolution yields `["body"]`, not the explicitly given `[]`. -/
theorem C4_cex :
    resolveLocations (some []) (some "body") = some ["body"] ∧
      (some ["body"] : Option (List String)) ≠ some [] :=
  ⟨rfl, by decide⟩

/-- C4 (amended): resolution precedence, with Python truthiness: a
*non-empty* explicit `locations` wins; otherwise a *non-empty* legacy
`location` string is wrapped into a one-element list; otherwise the
resolved value is `None`; and when a location list is resolved its first
element is passed to the conversion collaborator as the `default_in`
hint. -/
theorem C4_location_resolution (L : Option (List String)) (loc : Option String)
    (r : Bool) (conv : Val → ConvOptions → List Dict) (S : Val) (h h' : Handler) :
    (∀ x xs, L = some (x :: xs) → resolveLocations L loc = some (x :: xs)) ∧
    ((L = none ∨ L = some []) → ∀ s, loc = some s → s ≠ "" →
      resolveLocations L loc = some [s]) ∧
    ((L = none ∨ L = some []) → (loc = none ∨ loc = some "") →
      resolveLocations L loc = none) ∧
    (∀ x xs, resolveLocations L loc = some (x :: xs) →
      (convOptionsFor r (resolveLocations L loc)).default_in = some x) ∧
    (use_kwargs conv S L loc r h = some h' →
      getParams h' = getParams h ++
        (conv S (convOptionsFor r (resolveLocations L loc))).map Val.vdict) := by
  refine ⟨?_, ?_, ?_, ?_, ?_⟩
  · rintro x xs rfl
    simp [resolveLocations]
  · rintro (rfl | rfl) s rfl hs <;> simp [resolveLocations, hs]
  · rintro (rfl | rfl) (rfl | rfl) <;> simp [resolveLocations]
  · intro x xs hres
    rw [hres]
    rfl
  · intro happ
    obtain ⟨ps, hps, rfl⟩ := use_kwargs_spec _ _ _ _ _ _ _ happ
    rw [getParams_after_set, getParams_of_lookup h ps hps]

/-- Witness for the amended C4: explicit `["query"]` beats legacy
`"body"`, and `"query"` is the `default_in` hint. -/
theorem C4_witness :
    resolveLocations (some ["query"]) (some "body") = some ["query"] ∧
    (convOptionsFor false
      (resolveLocations (some ["query"]) (some "body"))).default_in = some "query" :=
  have T := C4_location_resolution (some ["query"]) (some "body") false
    (fun _ _ => []) (Val.vstr "S") freshHandler freshHandler
  ⟨T.1 "query" [] rfl, T.2.2.2.1 "query" [] (T.1 "query" [] rfl)⟩

/-! ### C10 -/

/-- C10: an explicitly supplied but empty `locations` list is treated as
absent: resolution falls through to the legacy `location` option, and with
that also absent the resolved value is `None`, so the appended schema-list
entry records `locations = None` rather than the empty list. -/
theorem C10_empty_locations (loc : Option String)
    (conv : Val → ConvOptions → List Dict) (S : Val) (r : Bool) (h h' : Handler) :
    resolveLocations (some []) loc = resolveLocations none loc ∧
    resolveLocations (some []) none = none ∧
    (use_kwargs conv S (some []) none r h = some h' →
      h'.schemas = some (getSchemas h ++ [schemaEntry S none])) := by
  refine ⟨rfl, rfl, ?_⟩
  intro happ
  obtain ⟨ps, hps, rfl⟩ := use_kwargs_spec _ _ _ _ _ _ _ happ
  rfl

/-- Witness for C10: empty supplied list plus absent legacy option stores
`locations = None` on a fresh handler. -/
theorem C10_witness :
    resolveLocations (some []) (some "hdr") = resolveLocations none (some "hdr") ∧
    resolveLocations (some []) none = none ∧
    Handler.schemas ⟨0, some [("parameters", Val.vlist []),
        ("responses", Val.vdict []), ("docked", Val.vdict [])],
      some [[("schema", Val.vstr "S"), ("locations", Val.vnone)]]⟩ =
      some (getSchemas freshHandler ++ [schemaEntry (Val.vstr "S") none]) :=
  have T := C10_empty_locations (some "hdr") (fun _ _ => []) (Val.vstr "S") false
    freshHandler ⟨0, some [("parameters", Val.vlist []),
      ("responses", Val.vdict []), ("docked", Val.vdict [])],
      some [[("schema", Val.vstr "S"), ("locations", Val.vnone)]]⟩
  ⟨T.1, T.2.1, T.2.2 rfl⟩

/-! ### C5 and C6 -/

theorem mem_dinsert (l : Dict) (k : String) (v : Val) (kv : String × Val)
    (h : kv ∈ dinsert l k v) : kv = (k, v) ∨ kv ∈ l := by
  induction l with
  | nil =>
    simp [dinsert] at h
    exact Or.inl h
  | cons p rest ih =>
    obtain ⟨k1, v1⟩ := p
    by_cases hk : k1 = k
    · subst hk
      have h' : kv = (k1, v) ∨ kv ∈ rest := by simpa [dinsert] using h
      rcases h' with h' | h'
      · exact Or.inl h'
      · exact Or.inr (List.mem_cons_of_mem _ h')
    · have h' : kv = (k1, v1) ∨ kv ∈ dinsert rest k v := by
        simpa [dinsert, hk] using h
      rcases h' with h' | h'
      · exact Or.inr (by simp [h'])
      · rcases ih h' with h2 | h2
        · exact Or.inl h2
        · exact Or.inr (List.mem_cons_of_mem _ h2)

theorem mem_filterResponse (raw : Dict) (d : Option String) (kv : String × Val)
    (h : kv ∈ filterResponse raw d) : kv.1 ∈ validResponseFields := by
  have base : ∀ kv' : String × Val,
      kv' ∈ raw.filter (fun kv0 => decide (kv0.1 ∈ validResponseFields)) →
      kv'.1 ∈ validResponseFields := fun kv' hm =>
    of_decide_eq_true (List.mem_filter.mp hm).2
  rcases d with _ | dd
  · exact base kv (by simpa [filterResponse] using h)
  · by_cases hdd : dd = ""
    · exact base kv (by simpa [filterResponse, hdd] using h)
    · have h' := mem_dinsert _ _ _ _ (by simpa [filterResponse, hdd] using h)
      rcases h' with h' | h'
      · simp [h', validResponseFields]
      · exact base kv h'

theorem getResponses_after_set (h : Handler) (spec : Dict) (rs : Dict) :
    getResponses { h with apispec := some (dinsert spec "responses" (.vdict rs)) }
      = rs := by
  simp [getResponses, getSpec, dlookup_dinsert_self]

/-- C5 counterexample: an explicitly supplied *empty-string* description is
falsy in Python, so it does not overwrite the collaborator's description. -/
theorem C5_cex :
    (marshal_with (fun _ _ => [[("description", Val.vstr "conv")]]) (Val.vstr "S")
        200 false (some "") freshHandler).map
      (fun h => dlookup (getResponses h) "200") =
      some (some (Val.vdict [("description", Val.vstr "conv")])) ∧
    Val.vstr "conv" ≠ Val.vstr "" :=
  ⟨rfl, fun hc => absurd (Val.vstr.inj hc) (by decide)⟩

/-- C5 (amended): the descriptor stored at `responses[str(code)]` only has
keys from the whitelist `{schema, description, headers, examples}` (any
other collaborator-produced key is dropped), and a *non-empty* explicit
description argument overwrites any collaborator-produced description. -/
theorem C5_marshal_with_whitelist (conv : Val → ConvOptions → List Dict) (S : Val)
    (c : Nat) (r : Bool) (d : Option String) (h h' : Handler)
    (happ : marshal_with conv S c r d h = some h') :
    ∃ params, dlookup (getResponses h') (toString c) = some (.vdict params) ∧
      (∀ kv ∈ params, kv.1 ∈ validResponseFields) ∧
      (∀ s, d = some s → s ≠ "" → dlookup params "description" = some (.vstr s)) := by
  obtain ⟨raw, rest, rs, hconv, hrs, rfl⟩ := marshal_with_spec _ _ _ _ _ _ _ happ
  refine ⟨filterResponse raw d, ?_, ?_, ?_⟩
  · rw [getResponses_after_set, dlookup_dinsert_self]
  · intro kv hkv
    exact mem_filterResponse raw d kv hkv
  · intro s hd hs
    subst hd
    simp [filterResponse, hs, dlookup_dinsert_self]

/-- Witness for the amended C5: collaborator output with a non-whitelisted
key `x-extra` and an explicit description `"Not found"` at code 404. -/
theorem C5_witness :
    ∃ params,
      dlookup (getResponses ⟨0,
        some [("parameters", Val.vlist []),
          ("responses", Val.vdict [("404", Val.vdict
            [("description", Val.vstr "Not found")])]),
          ("docked", Val.vdict [])], none⟩) (toString 404) =
        some (.vdict params) ∧
      (∀ kv ∈ params, kv.1 ∈ validResponseFields) ∧
      (∀ s, (some "Not found" : Option String) = some s → s ≠ "" →
        dlookup params "description" = some (.vstr s)) :=
  C5_marshal_with_whitelist
    (fun _ _ => [[("description", Val.vstr "conv"), ("x-extra", Val.vstr "y")]])
    (Val.vstr "S") 404 false (some "Not found") freshHandler _ rfl

/-- C6: one `marshal_with` call at code `c` stores at `responses[str(c)]` a
descriptor computed solely from that call's arguments (so a second call
with the same code entirely replaces the first call's entry), and leaves
the entry at every other status-code key unchanged. -/
theorem C6_marshal_with_replaces (conv : Val → ConvOptions → List Dict) (S : Val)
    (c : Nat) (r : Bool) (d : Option String) (h h' : Handler)
    (happ : marshal_with conv S c r d h = some h') :
    (∃ raw rest, conv S { required := r, default_in := none } = raw :: rest ∧
      dlookup (getResponses h') (toString c) = some (.vdict (filterResponse raw d))) ∧
    (∀ k, k ≠ toString c → dlookup (getResponses h') k = dlookup (getResponses h) k) := by
  obtain ⟨raw, rest, rs, hconv, hrs, rfl⟩ := marshal_with_spec _ _ _ _ _ _ _ happ
  constructor
  · exact ⟨raw, rest, hconv, by rw [getResponses_after_set, dlookup_dinsert_self]⟩
  · intro k hk
    rw [getResponses_after_set, getResponses_of_lookup h rs hrs,
      dlookup_dinsert_ne _ _ _ _ (fun he => hk he.symm)]

/-- Witness for C6: replacing the `200` entry on a handler that already has
`200` and `404` entries leaves `404` untouched. -/
theorem C6_witness :
    (∃ raw rest,
      (fun (_ : Val) (_ : ConvOptions) => [[("schema", Val.vstr "B")]])
        (Val.vstr "B") { required := false, default_in := none } = raw :: rest ∧
      dlookup (getResponses ⟨0,
        some [("parameters", Val.vlist []),
          ("responses", Val.vdict [("200", Val.vdict [("schema", Val.vstr "B")]),
            ("404", Val.vdict [])]),
          ("docked", Val.vdict [])], none⟩) (toString 200) =
        some (.vdict (filterResponse raw none))) ∧
    (∀ k, k ≠ toString 200 →
      dlookup (getResponses ⟨0,
        some [("parameters", Val.vlist []),
          ("responses", Val.vdict [("200", Val.vdict [("schema", Val.vstr "B")]),
            ("404", Val.vdict [])]),
          ("docked", Val.vdict [])], none⟩) k =
      dlookup (getResponses ⟨0,
        some [("parameters", Val.vlist []),
          ("responses", Val.vdict [("200", Val.vdict [("description", Val.vstr "old")]),
            ("404", Val.vdict [])]),
          ("docked", Val.vdict [])], none⟩) k) :=
  C6_marshal_with_replaces
    (fun _ _ => [[("schema", Val.vstr "B")]]) (Val.vstr "B") 200 false none
    ⟨0, some [("parameters", Val.vlist []),
      ("responses", Val.vdict [("200", Val.vdict [("description", Val.vstr "old")]),
        ("404", Val.vdict [])]),
      ("docked", Val.vdict [])], none⟩ _ rfl

/-! ### C7 and C8 -/

theorem getParams_docs_of_safe (kwargs : Dict) (h : Handler)
    (hp : dlookup kwargs "parameters" = none) :
    getParams (docs kwargs h) = getParams h := by
  have h1 : dlookup (getSpec (docs kwargs h)) "parameters"
      = dlookup (h.apispec.getD emptyApispec) "parameters" := by
    rw [getSpec_docs, dlookup_dinsert_ne _ _ _ _ (by decide)]
    refine dlookup_dupdate_of_none _ _ _ ?_
    rw [dlookup_dinsert_ne _ _ _ _ (by decide)]
    exact hp
  cases ha : h.apispec with
  | none =>
    have h2 : dlookup (getSpec (docs kwargs h)) "parameters" = some (Val.vlist []) := by
      rw [h1, ha]
      rfl
    unfold getParams
    rw [h2]
    simp [getSpec, ha, dlookup]
  | some d =>
    have h2 : dlookup (getSpec (docs kwargs h)) "parameters" = dlookup d "parameters" := by
      rw [h1, ha, Option.getD_some]
    have h3 : getSpec h = d := by simp [getSpec, ha]
    unfold getParams
    rw [h2, h3]

theorem getResponses_docs_of_safe (kwargs : Dict) (h : Handler)
    (hr : dlookup kwargs "responses" = none) :
    getResponses (docs kwargs h) = getResponses h := by
  have h1 : dlookup (getSpec (docs kwargs h)) "responses"
      = dlookup (h.apispec.getD emptyApispec) "responses" := by
    rw [getSpec_docs, dlookup_dinsert_ne _ _ _ _ (by decide)]
    refine dlookup_dupdate_of_none _ _ _ ?_
    rw [dlookup_dinsert_ne _ _ _ _ (by decide)]
    exact hr
  cases ha : h.apispec with
  | none =>
    have h2 : dlookup (getSpec (docs kwargs h)) "responses" = some (Val.vdict []) := by
      rw [h1, ha]
      rfl
    unfold getResponses
    rw [h2]
    simp [getSpec, ha, dlookup]
  | some d =>
    have h2 : dlookup (getSpec (docs kwargs h)) "responses" = dlookup d "responses" := by
      rw [h1, ha, Option.getD_some]
    have h3 : getSpec h = d := by simp [getSpec, ha]
    unfold getResponses
    rw [h2, h3]

theorem getResponses_after_params_set (h : Handler) (l : List Val)
    (ss : Option (List Dict)) :
    getResponses { h with
      apispec := some (dinsert (h.apispec.getD emptyApispec) "parameters" (.vlist l)),
      schemas := ss } = getResponses h := by
  cases ha : h.apispec with
  | none => simp [getResponses, getSpec, ha, dlookup, dinsert, emptyApispec]
  | some d =>
    have he : dlookup (dinsert d "parameters" (.vlist l)) "responses"
        = dlookup d "responses" := dlookup_dinsert_ne _ _ _ _ (by decide)
    simp [getResponses, getSpec, ha, he]

theorem getParams_after_responses_set (h : Handler) (rs : Dict) :
    getParams { h with
      apispec := some (dinsert (h.apispec.getD emptyApispec) "responses" (.vdict rs)) }
      = getParams h := by
  cases ha : h.apispec with
  | none => simp [getParams, getSpec, ha, dlookup, dinsert, emptyApispec]
  | some d =>
    have he : dlookup (dinsert d "responses" (.vdict rs)) "parameters"
        = dlookup d "parameters" := dlookup_dinsert_ne _ _ _ _ (by decide)
    simp [getParams, getSpec, ha, he]

theorem dlookup_dinsert_isSome (l : Dict) (ki k : String) (v w : Val)
    (h : dlookup l k = some w) : ∃ w', dlookup (dinsert l ki v) k = some w' := by
  by_cases hk : ki = k
  · subst hk
    exact ⟨v, dlookup_dinsert_self _ _ _⟩
  · refine ⟨w, ?_⟩
    rw [dlookup_dinsert_ne _ _ _ _ hk]
    exact h

/-- C7 counterexample: after a `use_kwargs` call has appended a parameter
descriptor, a `docs` call whose option set carries a `parameters` key
overwrites the accumulated list wholesale, removing the entry. -/
theorem C7_cex :
    (use_kwargs (fun _ _ => [[("name", Val.vstr "p")]]) (Val.vstr "S")
        (some ["query"]) none false freshHandler).map
      (fun h1 => (getParams h1, getParams (docs [("parameters", Val.vlist [])] h1))) =
      some ([Val.vdict [("name", Val.vstr "p")]], []) ∧
    ([Val.vdict [("name", Val.vstr "p")]] : List Val) ≠ [] :=
  ⟨rfl, by simp⟩

/-- C7 (amended): provided a `docs` option set does not itself carry the
`parameters` or `responses` keys (which `docs` would overwrite wholesale),
no operation removes entries: the parameters list and the schema list
before the operation are prefixes (same positions) of the ones after, and
every response-code key present before is still present after. -/
theorem C7_no_removal (op : Op) (h h' : Handler)
    (hs : op.safe) (happ : op.apply h = some h') :
    (∃ tail, getParams h' = getParams h ++ tail) ∧
    (∃ tail, getSchemas h' = getSchemas h ++ tail) ∧
    (∀ k v, dlookup (getResponses h) k = some v →
      ∃ v', dlookup (getResponses h') k = some v') := by
  cases op with
  | docsOp kwargs =>
    obtain rfl : docs kwargs h = h' := Option.some.inj happ
    obtain ⟨hp, hr⟩ := hs
    refine ⟨⟨[], ?_⟩, ⟨[], ?_⟩, ?_⟩
    · rw [List.append_nil, getParams_docs_of_safe kwargs h hp]
    · rw [List.append_nil]
      rfl
    · intro k v hv
      rw [getResponses_docs_of_safe kwargs h hr]
      exact ⟨v, hv⟩
  | useKwargsOp conv S L loc r =>
    obtain ⟨ps, hps, rfl⟩ := use_kwargs_spec _ _ _ _ _ _ _ happ
    refine ⟨⟨(conv S (convOptionsFor r (resolveLocations L loc))).map Val.vdict, ?_⟩,
      ⟨[schemaEntry S (resolveLocations L loc)], rfl⟩, ?_⟩
    · rw [getParams_after_set, getParams_of_lookup h ps hps]
    · intro k v hv
      rw [getResponses_after_params_set]
      exact ⟨v, hv⟩
  | marshalOp conv S c r d =>
    obtain ⟨raw, rest, rs, hconv, hrs, rfl⟩ := marshal_with_spec _ _ _ _ _ _ _ happ
    refine ⟨⟨[], ?_⟩, ⟨[], ?_⟩, ?_⟩
    · rw [List.append_nil, getParams_after_responses_set]
    · rw [List.append_nil]
      rfl
    · intro k v hv
      rw [getResponses_after_set]
      rw [getResponses_of_lookup h rs hrs] at hv
      exact dlookup_dinsert_isSome _ _ _ _ _ hv

/-- Witness for the amended C7: a safe `docs` call on a fresh handler. -/
theorem C7_witness :
    (∃ tail, getParams ⟨0,
      some [("parameters", Val.vlist []), ("responses", Val.vdict []),
        ("docked", Val.vdict [("route", Val.vbool false)]),
        ("tags", Val.vstr "t"),
        ("produces", Val.vlist [Val.vstr "application/json"])], none⟩ =
      getParams freshHandler ++ tail) ∧
    (∃ tail, getSchemas ⟨0,
      some [("parameters", Val.vlist []), ("responses", Val.vdict []),
        ("docked", Val.vdict [("route", Val.vbool false)]),
        ("tags", Val.vstr "t"),
        ("produces", Val.vlist [Val.vstr "application/json"])], none⟩ =
      getSchemas freshHandler ++ tail) ∧
    (∀ k v, dlookup (getResponses freshHandler) k = some v →
      ∃ v', dlookup (getResponses ⟨0,
        some [("parameters", Val.vlist []), ("responses", Val.vdict []),
          ("docked", Val.vdict [("route", Val.vbool false)]),
          ("tags", Val.vstr "t"),
          ("produces", Val.vlist [Val.vstr "application/json"])], none⟩) k =
        some v') :=
  C7_no_removal (Op.docsOp [("tags", Val.vstr "t")]) freshHandler _ ⟨rfl, rfl⟩ rfl

/-- C8: each of the three decorators returns the same handler object: the
underlying behaviour (`body`) is untouched; only the two attached side
tables change. -/
theorem C8_returns_same_handler (op : Op) (h h' : Handler)
    (happ : op.apply h = some h') : h'.body = h.body := by
  cases op with
  | docsOp kwargs =>
    obtain rfl : docs kwargs h = h' := Option.some.inj happ
    rfl
  | useKwargsOp conv S L loc r =>
    obtain ⟨ps, hps, rfl⟩ := use_kwargs_spec _ _ _ _ _ _ _ happ
    rfl
  | marshalOp conv S c r d =>
    obtain ⟨raw, rest, rs, hconv, hrs, rfl⟩ := marshal_with_spec _ _ _ _ _ _ _ happ
    rfl

/-- Witness for C8: a concrete `docs` application preserves the handler. -/
theorem C8_witness :
    Handler.body ⟨0,
      some [("parameters", Val.vlist []), ("responses", Val.vdict []),
        ("docked", Val.vdict [("route", Val.vbool false)]),
        ("produces", Val.vlist [Val.vstr "application/json"])], none⟩ =
      Handler.body freshHandler :=
  C8_returns_same_handler (Op.docsOp []) freshHandler _ rfl

/-! ### C9 -/

/-- C9: a callable schema argument is invoked exactly once, at
decorator-construction time (the counter advances by one at construction
and the returned decorator is the application pipeline closed over the
single resolved instance `f n`); hence applying the one decorator to any
handler appends a schema entry referencing that same instance. -/
theorem C9_factory_invoked_once (f : Nat → Val) (n : Nat)
    (conv : Val → ConvOptions → List Dict) (L : Option (List String))
    (loc : Option String) (r : Bool) (c : Nat) (d : Option String)
    (h h' : Handler) :
    (use_kwargs_ctor conv (.factory f) L loc r n).2 = n + 1 ∧
    (use_kwargs_ctor conv (.factory f) L loc r n).1 = use_kwargs conv (f n) L loc r ∧
    (marshal_with_ctor conv (.factory f) c r d n).2 = n + 1 ∧
    (marshal_with_ctor conv (.factory f) c r d n).1 =
      marshal_with conv (f n) c r d ∧
    ((use_kwargs_ctor conv (.factory f) L loc r n).1 h = some h' →
      h'.schemas = some (getSchemas h ++
        [schemaEntry (f n) (resolveLocations L loc)])) := by
  refine ⟨rfl, rfl, rfl, rfl, ?_⟩
  intro happ
  obtain ⟨ps, hps, rfl⟩ := use_kwargs_spec _ _ _ _ _ _ _ happ
  rfl

/-- Witness for C9: a factory producing `vint k` at invocation count `k`,
resolved once at construction with counter 5. -/
theorem C9_witness :
    (use_kwargs_ctor (fun _ _ => []) (.factory (fun k => Val.vint k))
        none none false 5).2 = 5 + 1 ∧
    (use_kwargs_ctor (fun _ _ => []) (.factory (fun k => Val.vint k))
        none none false 5).1 = use_kwargs (fun _ _ => []) (Val.vint 5) none none false ∧
    (marshal_with_ctor (fun _ _ => []) (.factory (fun k => Val.vint k))
        200 false none 5).2 = 5 + 1 ∧
    (marshal_with_ctor (fun _ _ => []) (.factory (fun k => Val.vint k))
        200 false none 5).1 =
      marshal_with (fun _ _ => []) (Val.vint 5) 200 false none ∧
    ((use_kwargs_ctor (fun _ _ => []) (.factory (fun k => Val.vint k))
        none none false 5).1 freshHandler =
      some ⟨0, some [("parameters", Val.vlist []), ("responses", Val.vdict []),
        ("docked", Val.vdict [])],
        some [[("schema", Val.vint 5), ("locations", Val.vnone)]]⟩ →
      Handler.schemas ⟨0, some [("parameters", Val.vlist []),
        ("responses", Val.vdict []), ("docked", Val.vdict [])],
        some [[("schema", Val.vint 5), ("locations", Val.vnone)]]⟩ =
      some (getSchemas freshHandler ++
        [schemaEntry (Val.vint 5) (resolveLocations none none)])) :=
  C9_factory_invoked_once (fun k => Val.vint k) 5 (fun _ _ => []) none none false
    200 none freshHandler _

end ApispecModel
